import Mathlib

/-!
Verification of collectd src/plugin.c against its specification.

This file gives a shallow embedding of the functions of plugin.c: the
phase registries built by register_callback, the value dispatcher
plugin_dispatch_values, the module loader filename matching of
plugin_load, the read sweep plugin_read_all, and the complaint limiter
state machine (plugin_complain / plugin_relief).  The registry lists
are the utils_llist linked lists; a list pointer that is still NULL is
modelled as Option.none.  Machine integers stay within small ranges
here (the complaint interval is clamped at 86400), so Nat and Int are
used directly.
-/

universe u

/-- State of one complaint call site: the two fields of complain_t that
plugin_complain and plugin_relief read and write (interval and delay).
The state is zero initialized at first use. -/
structure complain_t where
  interval : Nat
  delay : Nat
  deriving DecidableEq

/-- plugin_complain from plugin.c.  The COLLECTD_STEP configuration
value is passed as the step argument (the code asserts it is positive).
The Bool component reports whether syslog was called (the message text
itself is irrelevant to the throttling decision). -/
def plugin_complain (step : Nat) (c : complain_t) : complain_t × Bool :=
  if 0 < c.delay then
    (⟨c.interval, c.delay - 1⟩, false)
  else
    let i1 := if c.interval < step then step else c.interval * 2
    let i2 := if 86400 < i1 then 86400 else i1
    (⟨i2, i2 / step⟩, true)

/-- The state component of one plugin_complain call. -/
def complainState (step : Nat) (c : complain_t) : complain_t :=
  (plugin_complain step c).1

/-- plugin_relief from plugin.c.  The Bool component reports whether
syslog was called. -/
def plugin_relief (c : complain_t) : complain_t × Bool :=
  if c.interval = 0 then (c, false)
  else (⟨0, c.delay⟩, true)

/-- One call made against a complaint state: either plugin_complain or
plugin_relief. -/
inductive PluginOp where
  | complainOp
  | reliefOp

/-- Apply one complain or relief call to a complaint state. -/
def applyOp (step : Nat) (c : complain_t) : PluginOp → complain_t
  | PluginOp.complainOp => complainState step c
  | PluginOp.reliefOp => (plugin_relief c).1

/-- The complaint state reached from the zero initialized state after a
sequence of complain and relief calls. -/
def runOps (step : Nat) (ops : List PluginOp) : complain_t :=
  ops.foldl (applyOp step) ⟨0, 0⟩

/-- Modelled from the spec: llist_search from utils_llist.c is not under
src (plugin.c only calls it).  Per the spec, lookup returns the value
stored under the first entry with the given key, and reports not-found
when the key is absent; a list pointer that is still NULL has no
entries. -/
def llist_search {α : Type u} (l : Option (List (String × α))) (name : String) : Option α :=
  ((l.getD []).find? (fun e => e.1 == name)).map (fun e => e.2)

/-- The in-place overwrite that register_callback performs through the
entry returned by llist_search: the value of the first entry with the
given key is replaced, the rest of the list is untouched. -/
def llentry_set_value {α : Type u} (name : String) (cb : α) :
    List (String × α) → List (String × α)
  | [] => []
  | e :: es =>
    if e.1 == name then (e.1, cb) :: es
    else e :: llentry_set_value name cb es

/-- register_callback from plugin.c over the list model: the list is
created on first use, a fresh name is appended at the end (llist_append),
an existing name has its value overwritten in place.  Allocation
(llist_create, llentry_create) is modelled as always succeeding, so the
early -1 returns of the C code do not appear. -/
def register_callback {α : Type u} (reg : Option (List (String × α))) (name : String)
    (cb : α) : Option (List (String × α)) :=
  let l := reg.getD []
  match l.find? (fun e => e.1 == name) with
  | none => some (l ++ [(name, cb)])
  | some _ => some (llentry_set_value name cb l)

/-- plugin_dispatch_values from plugin.c.  The two registry globals
(list_write and list_data_set) are passed explicitly.  The Int is the C
return code; the list records every write callback invocation in order,
with the exact arguments (callback value, data set, value list) of the
call — the C code discards the int returned by each callback. -/
def plugin_dispatch_values {W D V : Type u} (list_write : Option (List (String × W)))
    (list_data_set : Option (List (String × D))) (name : String) (vl : V) :
    Int × List (W × D × V) :=
  match list_write with
  | none => (-1, [])
  | some lw =>
    match llist_search list_data_set name with
    | none => (-1, [])
    | some ds => (0, lw.map (fun e => (e.2, ds, vl)))

/-- The while loop of plugin_read_all: loop gives the value of the
shared cancellation flag at its k-th dereference; the flag is read
before each callback, and the loop body runs only while it is zero.
The result lists the callbacks invoked, in list order. -/
def plugin_read_loop {α : Type u} (loop : Nat → Int) : Nat → List (String × α) → List α
  | _, [] => []
  | k, e :: es =>
    if loop k = 0 then e.2 :: plugin_read_loop loop (k + 1) es
    else []

/-- plugin_read_all from plugin.c: a NULL read registry is an immediate
return; otherwise the list is swept from its head under the cancellation
flag. -/
def plugin_read_all {α : Type u} (loop : Nat → Int) (reg : Option (List (String × α))) :
    List α :=
  match reg with
  | none => []
  | some l => plugin_read_loop loop 0 l

/-- One directory entry seen by plugin_load.  The d_name field is the
filename; activates abstracts the whole per-candidate pipeline after the
name match (the dir/name buffer fits, lstat succeeds, the entry is a
regular file, and plugin_load_file returns 0). -/
structure dirent_t where
  d_name : List Char
  activates : Bool
  deriving DecidableEq

/-- strncasecmp(a, b, n) == 0, over the List Char model: the first n
characters agree up to case.  A string shorter than n ends in NUL where
the other has a real character, so the comparison fails, which the take
model reproduces through unequal lengths. -/
def strncasecmp_eq (a b : List Char) (n : Nat) : Bool :=
  ((a.take n).map Char.toLower) == ((b.take n).map Char.toLower)

/-- The typename buffer built by plugin_load: the type name with the
fixed ".so" suffix appended, so that cpu does not match cpufreq. -/
def plugin_typename (type : List Char) : List Char :=
  type ++ (".so".toList)

/-- The readdir loop of plugin_load: entries whose name does not match
the typename prefix are skipped outright; a matching entry is tried, and
the loop stops at the first successful activation (ret = 0, break).  The
Int is the C return value (1 when no candidate succeeded); the list
records the candidates that were tried, in order. -/
def plugin_load_go (tn : List Char) : List dirent_t → Int × List dirent_t
  | [] => (1, [])
  | e :: es =>
    if strncasecmp_eq e.d_name tn tn.length then
      if e.activates then (0, [e])
      else
        let r := plugin_load_go tn es
        (r.1, e :: r.2)
    else plugin_load_go tn es

/-- plugin_load from plugin.c: builds the typename (returning -1 when
snprintf would truncate it, BUFSIZE being 512) and walks the directory
entries. -/
def plugin_load (type : List Char) (entries : List dirent_t) : Int × List dirent_t :=
  if 512 ≤ type.length + 3 then (-1, [])
  else plugin_load_go (plugin_typename type) entries

/-! Lemmas about the complaint limiter state machine. -/

theorem complainState_delay_pos (step : Nat) (c : complain_t) (h : 0 < c.delay) :
    complainState step c = ⟨c.interval, c.delay - 1⟩ := by
  simp [complainState, plugin_complain, h]

theorem plugin_complain_suppressed (step : Nat) (c : complain_t) (h : 0 < c.delay) :
    (plugin_complain step c).2 = false := by
  simp [plugin_complain, h]

theorem complainState_delay_zero (step : Nat) (c : complain_t) (h : c.delay = 0) :
    complainState step c =
      ⟨min (if c.interval < step then step else c.interval * 2) 86400,
        min (if c.interval < step then step else c.interval * 2) 86400 / step⟩ := by
  have hd : ¬ 0 < c.delay := by omega
  have hmin : (if 86400 < (if c.interval < step then step else c.interval * 2) then 86400
      else (if c.interval < step then step else c.interval * 2))
      = min (if c.interval < step then step else c.interval * 2) 86400 := by
    split <;> split <;> omega
  simp [complainState, plugin_complain, hd, hmin]

theorem complainState_interval_le (step : Nat) (c : complain_t) (h : c.interval ≤ 86400) :
    (complainState step c).interval ≤ 86400 := by
  by_cases hd : 0 < c.delay
  · simpa [complainState_delay_pos step c hd] using h
  · rw [complainState_delay_zero step c (by omega)]
    simp

theorem complainState_sat (step : Nat) (c : complain_t) (hc : c.interval = 86400) :
    (complainState step c).interval = 86400 := by
  by_cases hd : 0 < c.delay
  · simpa [complainState_delay_pos step c hd] using hc
  · rw [complainState_delay_zero step c (by omega)]
    by_cases hs : 86400 < step <;> simp [hc, hs] <;> omega

theorem complainState_iterate_sat (step : Nat) (c : complain_t) (hc : c.interval = 86400) :
    ∀ k, ((complainState step)^[k] c).interval = 86400 := by
  intro k
  induction k with
  | zero => simpa using hc
  | succ k ih =>
    rw [Function.iterate_succ_apply']
    exact complainState_sat step _ ih

theorem complainState_iterate_drain (step : Nat) (c : complain_t) (k : Nat)
    (h : k ≤ c.delay) : (complainState step)^[k] c = ⟨c.interval, c.delay - k⟩ := by
  induction k with
  | zero => simp
  | succ k ih =>
    have hk : k ≤ c.delay := by omega
    rw [Function.iterate_succ_apply', ih hk,
      complainState_delay_pos step _ (show 0 < c.delay - k by omega)]
    simp [Nat.sub_sub]

theorem complainState_grow (step : Nat) (hs : 0 < step) (c : complain_t)
    (hlt : c.interval < 86400) :
    c.interval < ((complainState step)^[c.delay + 1] c).interval
      ∧ ((complainState step)^[c.delay + 1] c).interval ≤ 86400 := by
  rw [Function.iterate_succ_apply',
    complainState_iterate_drain step c c.delay (le_refl _),
    complainState_delay_zero step ⟨c.interval, c.delay - c.delay⟩ (by simp)]
  constructor <;>
    · by_cases h : c.interval < step <;> simp [h] <;> omega

theorem complainState_reach_sat (step : Nat) (hs : 0 < step) :
    ∀ d (c : complain_t), 86400 - c.interval ≤ d → c.interval ≤ 86400 →
      ∃ n, ((complainState step)^[n] c).interval = 86400 := by
  intro d
  induction d with
  | zero =>
    intro c h1 h2
    exact ⟨0, by simpa using (show c.interval = 86400 by omega)⟩
  | succ d ih =>
    intro c h1 h2
    by_cases hc : c.interval = 86400
    · exact ⟨0, by simpa using hc⟩
    · obtain ⟨hg1, hg2⟩ := complainState_grow step hs c (by omega)
      obtain ⟨n, hn⟩ := ih ((complainState step)^[c.delay + 1] c) (by omega) hg2
      exact ⟨n + (c.delay + 1), by rw [Function.iterate_add_apply]; exact hn⟩

theorem plugin_relief_interval_le (c : complain_t) (h : c.interval ≤ 86400) :
    (plugin_relief c).1.interval ≤ 86400 := by
  by_cases h0 : c.interval = 0
  · simpa [plugin_relief, h0] using h
  · simp [plugin_relief, h0]

theorem runOps_interval_le_aux (step : Nat) (ops : List PluginOp) :
    ∀ c : complain_t, c.interval ≤ 86400 →
      (ops.foldl (applyOp step) c).interval ≤ 86400 := by
  induction ops with
  | nil => intro c h; simpa using h
  | cons op ops ih =>
    intro c h
    rw [List.foldl_cons]
    apply ih
    cases op with
    | complainOp => exact complainState_interval_le step c h
    | reliefOp => exact plugin_relief_interval_le c h

/-- C1 counterexample: with base step 50000, the state after two complain
calls from zero initialization is reachable, has delay 0 and interval at
least the step, yet the next complain call does not double the interval:
the code clamps the doubled value at 86400, which the claim omits. -/
theorem plugin_complain_backoff_counterexample :
    (complainState 50000 (complainState 50000 ⟨0, 0⟩)).delay = 0
      ∧ 50000 ≤ (complainState 50000 (complainState 50000 ⟨0, 0⟩)).interval
      ∧ (plugin_complain 50000 (complainState 50000 (complainState 50000 ⟨0, 0⟩))).1.interval
          ≠ (complainState 50000 (complainState 50000 ⟨0, 0⟩)).interval * 2 := by
  decide

/-- C1 (amended): for every positive base step S, the first complain
call on a zero initialized state emits and leaves interval = min S 86400
and delay = min S 86400 / S (so interval = S and delay = 1 whenever
S is at most 86400); a call with delay positive only decrements delay
and emits nothing; a call with delay 0 and S at most interval doubles
the interval clamping the result at 86400, sets delay to the new
interval divided by S, and emits.  With S = 10 the emitting calls sit
at cycles 0, 2, 5 with intervals 10, 20, 40. -/
theorem plugin_complain_backoff (step : Nat) (hs : 0 < step) :
    plugin_complain step ⟨0, 0⟩ = (⟨min step 86400, min step 86400 / step⟩, true)
      ∧ (∀ c : complain_t, 0 < c.delay →
          plugin_complain step c = (⟨c.interval, c.delay - 1⟩, false))
      ∧ (∀ c : complain_t, c.delay = 0 → step ≤ c.interval → c.interval ≤ 86400 →
          plugin_complain step c
            = (⟨min (c.interval * 2) 86400, min (c.interval * 2) 86400 / step⟩, true))
      ∧ ((plugin_complain 10 ⟨0, 0⟩).2 = true
          ∧ (plugin_complain 10 ((complainState 10)^[1] ⟨0, 0⟩)).2 = false
          ∧ (plugin_complain 10 ((complainState 10)^[2] ⟨0, 0⟩)).2 = true
          ∧ (plugin_complain 10 ((complainState 10)^[3] ⟨0, 0⟩)).2 = false
          ∧ (plugin_complain 10 ((complainState 10)^[4] ⟨0, 0⟩)).2 = false
          ∧ (plugin_complain 10 ((complainState 10)^[5] ⟨0, 0⟩)).2 = true
          ∧ ((complainState 10)^[1] ⟨0, 0⟩).interval = 10
          ∧ ((complainState 10)^[3] ⟨0, 0⟩).interval = 20
          ∧ ((complainState 10)^[6] ⟨0, 0⟩).interval = 40) := by
  refine ⟨?_, ?_, ?_, by decide⟩
  · have hmin : (if 86400 < step then 86400 else step) = min step 86400 := by
      split <;> omega
    simp [plugin_complain, hs, hmin]
  · intro c hc
    simp [plugin_complain, hc]
  · intro c h0 h1 h2
    have hd : ¬ 0 < c.delay := by omega
    have hlt : ¬ c.interval < step := by omega
    have hmin : (if 86400 < c.interval * 2 then 86400 else c.interval * 2)
        = min (c.interval * 2) 86400 := by
      split <;> omega
    simp [plugin_complain, hd, hlt, hmin]

/-- C1 witness: the amended backoff theorem applied at step 7 on the
zero initialized state. -/
theorem plugin_complain_backoff_witness :
    plugin_complain 7 ⟨0, 0⟩ = (⟨min 7 86400, min 7 86400 / 7⟩, true) :=
  (plugin_complain_backoff 7 (by decide)).1

/-- C6: from any state reachable from zero initialization through
complain and relief calls with a positive base step, the interval never
exceeds 86400, and repeated complain calls eventually pin it at exactly
86400 forever. -/
theorem complain_interval_saturates (step : Nat) (ops : List PluginOp) (hs : 0 < step) :
    (runOps step ops).interval ≤ 86400
      ∧ ∃ n, ∀ m, n ≤ m →
          ((complainState step)^[m] (runOps step ops)).interval = 86400 := by
  have hb : (runOps step ops).interval ≤ 86400 :=
    runOps_interval_le_aux step ops ⟨0, 0⟩ (by simp)
  refine ⟨hb, ?_⟩
  obtain ⟨n, hn⟩ := complainState_reach_sat step hs (86400 - (runOps step ops).interval)
    (runOps step ops) (le_refl _) hb
  refine ⟨n, fun m hm => ?_⟩
  have hmn : m = (m - n) + n := by omega
  rw [hmn, Function.iterate_add_apply]
  exact complainState_iterate_sat step _ hn (m - n)

/-- C6 witness: the saturation theorem applied at step 10 after a single
complain call. -/
theorem complain_interval_saturates_witness :
    (runOps 10 [PluginOp.complainOp]).interval ≤ 86400 :=
  (complain_interval_saturates 10 [PluginOp.complainOp] (by decide)).1

/-- C7: a relief call with interval 0 emits nothing and leaves the state
unchanged; a relief call with nonzero interval resets interval to 0,
keeps delay, and emits; and immediately repeated relief never emits a
second message. -/
theorem plugin_relief_spec (c : complain_t) (h : c.interval ≠ 0) :
    (∀ d : Nat, plugin_relief ⟨0, d⟩ = (⟨0, d⟩, false))
      ∧ plugin_relief c = (⟨0, c.delay⟩, true)
      ∧ (∀ c2 : complain_t, (plugin_relief (plugin_relief c2).1).2 = false) := by
  refine ⟨fun d => by simp [plugin_relief], by simp [plugin_relief, h], fun c2 => ?_⟩
  by_cases h2 : c2.interval = 0 <;> simp [plugin_relief, h2]

/-- C7 witness: the relief theorem applied at the state with interval 5
and delay 3. -/
theorem plugin_relief_spec_witness :
    plugin_relief ⟨5, 3⟩ = (⟨0, 3⟩, true) :=
  (plugin_relief_spec ⟨5, 3⟩ (by decide)).2.1

/-- C10: an emitting relief call only clears interval and leaves delay
unchanged (relief never touches delay), so a complain call made within
the remaining suppression window after a relief is still suppressed:
with d = delay at the relief, each of the next d complain calls emits
nothing. -/
theorem plugin_relief_frame (step : Nat) (c : complain_t) (k : Nat)
    (hi : c.interval ≠ 0) (hk : k < c.delay) :
    (plugin_relief c).1 = ⟨0, c.delay⟩
      ∧ (∀ c2 : complain_t, (plugin_relief c2).1.delay = c2.delay)
      ∧ ((complainState step)^[k] (plugin_relief c).1).delay = c.delay - k
      ∧ (plugin_complain step ((complainState step)^[k] (plugin_relief c).1)).2 = false := by
  have h1 : (plugin_relief c).1 = ⟨0, c.delay⟩ := by simp [plugin_relief, hi]
  have hdrain : (complainState step)^[k] (plugin_relief c).1 = ⟨0, c.delay - k⟩ := by
    rw [h1]
    exact complainState_iterate_drain step ⟨0, c.delay⟩ k (show k ≤ c.delay by omega)
  refine ⟨h1, fun c2 => ?_, by rw [hdrain], ?_⟩
  · by_cases h2 : c2.interval = 0 <;> simp [plugin_relief, h2]
  · rw [hdrain]
    exact plugin_complain_suppressed step _ (show 0 < c.delay - k by omega)

/-- C10 witness: the frame theorem applied at step 10, the state with
interval 5 and delay 3, and one already elapsed suppressed call. -/
theorem plugin_relief_frame_witness :
    (plugin_complain 10 ((complainState 10)^[1] (plugin_relief ⟨5, 3⟩).1)).2 = false :=
  (plugin_relief_frame 10 ⟨5, 3⟩ 1 (by decide) (by decide)).2.2.2

/-! Lemmas about the registry lists. -/

theorem llentry_set_value_length {α : Type u} (name : String) (cb : α)
    (l : List (String × α)) :
    (llentry_set_value name cb l).length = l.length := by
  induction l with
  | nil => rfl
  | cons e es ih =>
    by_cases h : (e.1 == name) = true <;> simp [llentry_set_value, h, ih]

theorem llentry_set_value_countP {α : Type u} (name : String) (cb : α)
    (l : List (String × α)) :
    (llentry_set_value name cb l).countP (fun e => e.1 == name)
      = l.countP (fun e => e.1 == name) := by
  induction l with
  | nil => rfl
  | cons e es ih =>
    by_cases h : (e.1 == name) = true <;>
      simp [llentry_set_value, h, ih, List.countP_cons]

theorem llentry_set_value_findIdx {α : Type u} (name : String) (cb : α)
    (l : List (String × α)) :
    (llentry_set_value name cb l).findIdx (fun e => e.1 == name)
      = l.findIdx (fun e => e.1 == name) := by
  induction l with
  | nil => rfl
  | cons e es ih =>
    by_cases h : (e.1 == name) = true <;>
      simp [llentry_set_value, h, ih, List.findIdx_cons]

theorem llentry_set_value_find? {α : Type u} (name : String) (cb : α)
    (l : List (String × α)) (h : (l.find? (fun e => e.1 == name)).isSome) :
    ∃ k : String, (k == name) = true
      ∧ (llentry_set_value name cb l).find? (fun e => e.1 == name) = some (k, cb) := by
  induction l with
  | nil => simp [List.find?] at h
  | cons e es ih =>
    by_cases hk : (e.1 == name) = true
    · refine ⟨e.1, hk, ?_⟩
      simp [llentry_set_value, hk, List.find?]
    · have h2 : (es.find? (fun x => x.1 == name)).isSome := by
        simpa [List.find?, hk] using h
      obtain ⟨k2, hk2, hfound⟩ := ih h2
      refine ⟨k2, hk2, ?_⟩
      simpa [llentry_set_value, hk, List.find?] using hfound

theorem find?_append_of_none {β : Type u} (p : β → Bool) (l l2 : List β)
    (h : l.find? p = none) : (l ++ l2).find? p = l2.find? p := by
  induction l with
  | nil => simp
  | cons a l ih =>
    by_cases hp : p a = true
    · simp [List.find?, hp] at h
    · simp only [List.find?, hp] at h
      simp only [List.cons_append, List.find?, hp]
      exact ih h

theorem register_callback_of_find?_none {α : Type u} (reg : Option (List (String × α)))
    (name : String) (cb : α)
    (h : (reg.getD []).find? (fun e => e.1 == name) = none) :
    register_callback reg name cb = some ((reg.getD []) ++ [(name, cb)]) := by
  simp [register_callback, h]

theorem register_callback_of_find?_some {α : Type u} (reg : Option (List (String × α)))
    (name : String) (cb : α) (x : String × α)
    (h : (reg.getD []).find? (fun e => e.1 == name) = some x) :
    register_callback reg name cb = some (llentry_set_value name cb (reg.getD [])) := by
  simp [register_callback, h]

/-- C3: registering a name twice in one phase registry leaves exactly
one entry for the name, holding the second callback, at the position in
iteration order the first registration gave it (not moved to the end),
and the entry count is unchanged from the first registration.  The
hypothesis is the registry invariant that a name occurs at most once. -/
theorem register_callback_overwrite {α : Type u} (reg : Option (List (String × α)))
    (name : String) (c1 c2 : α)
    (h : (reg.getD []).countP (fun e => e.1 == name) ≤ 1) :
    ((register_callback (register_callback reg name c1) name c2).getD []).countP
        (fun e => e.1 == name) = 1
      ∧ llist_search (register_callback (register_callback reg name c1) name c2) name
          = some c2
      ∧ ((register_callback (register_callback reg name c1) name c2).getD []).findIdx
            (fun e => e.1 == name)
          = ((register_callback reg name c1).getD []).findIdx (fun e => e.1 == name)
      ∧ ((register_callback (register_callback reg name c1) name c2).getD []).length
          = ((register_callback reg name c1).getD []).length := by
  cases hf : (reg.getD []).find? (fun e => e.1 == name) with
  | none =>
    have h1 := register_callback_of_find?_none reg name c1 hf
    have hl1 : (register_callback reg name c1).getD [] = (reg.getD []) ++ [(name, c1)] := by
      rw [h1]
      rfl
    have hf1 : ((reg.getD []) ++ [(name, c1)]).find? (fun e => e.1 == name)
        = some (name, c1) := by
      rw [find?_append_of_none _ _ _ hf]
      simp [List.find?]
    have h2 := register_callback_of_find?_some (register_callback reg name c1) name c2
      (name, c1) (by rw [hl1]; exact hf1)
    have hl2 : (register_callback (register_callback reg name c1) name c2).getD []
        = llentry_set_value name c2 ((reg.getD []) ++ [(name, c1)]) := by
      rw [h2, hl1]
      rfl
    have hc0 : (reg.getD []).countP (fun e => e.1 == name) = 0 := by
      rw [List.countP_eq_zero]
      exact List.find?_eq_none.mp hf
    obtain ⟨k, hk, hfound⟩ := llentry_set_value_find? name c2
      ((reg.getD []) ++ [(name, c1)]) (by rw [hf1]; rfl)
    refine ⟨?_, ?_, ?_, ?_⟩
    · rw [hl2, llentry_set_value_countP, List.countP_append, hc0]
      simp [List.countP_cons]
    · simp [llist_search, hl2, hfound]
    · rw [hl2, llentry_set_value_findIdx, hl1]
    · rw [hl2, llentry_set_value_length, hl1]
  | some x =>
    have h1 := register_callback_of_find?_some reg name c1 x hf
    have hl1 : (register_callback reg name c1).getD []
        = llentry_set_value name c1 (reg.getD []) := by
      rw [h1]
      rfl
    obtain ⟨k1, hk1, hfound1⟩ := llentry_set_value_find? name c1 (reg.getD [])
      (by rw [hf]; rfl)
    have h2 := register_callback_of_find?_some (register_callback reg name c1) name c2
      (k1, c1) (by rw [hl1]; exact hfound1)
    have hl2 : (register_callback (register_callback reg name c1) name c2).getD []
        = llentry_set_value name c2 (llentry_set_value name c1 (reg.getD [])) := by
      rw [h2, hl1]
      rfl
    have hc1 : (reg.getD []).countP (fun e => e.1 == name) = 1 := by
      have hmem := List.mem_of_find?_eq_some hf
      have hpx := List.find?_some hf
      have : 0 < (reg.getD []).countP (fun e => e.1 == name) :=
        List.countP_pos.mpr ⟨x, hmem, hpx⟩
      omega
    obtain ⟨k2, hk2, hfound2⟩ := llentry_set_value_find? name c2
      (llentry_set_value name c1 (reg.getD [])) (by rw [hfound1]; rfl)
    refine ⟨?_, ?_, ?_, ?_⟩
    · rw [hl2, llentry_set_value_countP, llentry_set_value_countP, hc1]
    · simp [llist_search, hl2, hfound2]
    · rw [hl2, llentry_set_value_findIdx, hl1]
    · rw [hl2, llentry_set_value_length, hl1]

/-- C3 witness: the overwrite theorem applied to the registry that holds
the single entry x with value 1, re-registering x with 2 and then 3. -/
theorem register_callback_overwrite_witness :
    llist_search (register_callback (register_callback (some [("x", 1)]) "x" 2) "x" 3) "x"
      = some 3 :=
  (register_callback_overwrite (some [("x", 1)]) "x" 2 3 (by decide)).2.1

/-- C2: with a registered schema for the type name and a non-empty write
registry, dispatch invokes every registered write callback exactly once,
in registration order, each with the same schema and value list, and
returns 0 — the invocation trace is exactly the map over the registry,
and the return code does not depend on anything the callbacks do. -/
theorem plugin_dispatch_values_fanout {W D V : Type u} (lw : List (String × W))
    (lds : Option (List (String × D))) (name : String) (vl : V) (ds : D)
    (hw : lw ≠ []) (hd : llist_search lds name = some ds) :
    plugin_dispatch_values (some lw) lds name vl
      = (0, lw.map (fun e => (e.2, ds, vl))) := by
  simp [plugin_dispatch_values, hd]

/-- C2 witness: dispatch over two write callbacks and a one-entry schema
catalog. -/
theorem plugin_dispatch_values_fanout_witness :
    plugin_dispatch_values (some [("w1", 1), ("w2", 2)]) (some [("cpu", 7)]) "cpu" 99
      = (0, [(1, 7, 99), (2, 7, 99)]) :=
  plugin_dispatch_values_fanout [("w1", 1), ("w2", 2)] (some [("cpu", 7)]) "cpu" 99 7
    (by decide) (by decide)

/-- C4: when no write callback has ever been registered (the write list
pointer is still NULL), dispatch fails with -1 — the UnknownType error
return of the C code — before even consulting the schema catalog, so it
fails even when a schema for the name is registered. -/
theorem plugin_dispatch_values_no_writers {W D V : Type u}
    (lds : Option (List (String × D))) (name : String) (vl : V)
    (h : (llist_search lds name).isSome) :
    plugin_dispatch_values (none : Option (List (String × W))) lds name vl
      = (-1, []) := by
  rfl

/-- C4 witness: dispatch with no writers but a schema registered for the
name. -/
theorem plugin_dispatch_values_no_writers_witness :
    plugin_dispatch_values (none : Option (List (String × Nat))) (some [("cpu", 7)])
        "cpu" 99
      = (-1, []) :=
  plugin_dispatch_values_no_writers (some [("cpu", 7)]) "cpu" 99 (by decide)

/-- C5: with write callbacks registered but no schema stored under the
type name, dispatch fails with -1 — the UnknownType error return — and
the invocation trace is empty: no write callback runs. -/
theorem plugin_dispatch_values_no_schema {W D V : Type u} (lw : List (String × W))
    (lds : Option (List (String × D))) (name : String) (vl : V)
    (hw : lw ≠ []) (hd : llist_search lds name = none) :
    plugin_dispatch_values (some lw) lds name vl = (-1, []) := by
  simp [plugin_dispatch_values, hd]

/-- C5 witness: dispatch with one writer and a catalog lacking the
requested name. -/
theorem plugin_dispatch_values_no_schema_witness :
    plugin_dispatch_values (some [("w1", 1)]) (some [("mem", 7)]) "cpu" 99
      = (-1, []) :=
  plugin_dispatch_values_no_schema [("w1", 1)] (some [("mem", 7)]) "cpu" 99
    (by decide) (by decide)

/-! Lemmas about the read sweep. -/

theorem plugin_read_loop_length {α : Type u} (loop : Nat → Int)
    (l : List (String × α)) :
    ∀ k j, k ≤ j → loop j ≠ 0 → (plugin_read_loop loop k l).length ≤ j - k := by
  induction l with
  | nil => intro k j _ _; simp [plugin_read_loop]
  | cons e es ih =>
    intro k j hkj hj
    by_cases hk : loop k = 0
    · have hne : k ≠ j := fun he => hj (he ▸ hk)
      have := ih (k + 1) j (by omega) hj
      simp only [plugin_read_loop, hk, if_pos, List.length_cons]
      omega
    · simp [plugin_read_loop, hk]

theorem plugin_read_loop_take {α : Type u} (loop : Nat → Int)
    (l : List (String × α)) :
    ∀ k, plugin_read_loop loop k l
      = (l.map (fun e => e.2)).take (plugin_read_loop loop k l).length := by
  induction l with
  | nil => intro k; simp [plugin_read_loop]
  | cons e es ih =>
    intro k
    by_cases hk : loop k = 0
    · simp only [plugin_read_loop, hk, if_pos, List.map_cons, List.length_cons,
        List.take_succ_cons]
      rw [← ih (k + 1)]
    · simp [plugin_read_loop, hk]

/-- C8: the read sweep invokes zero callbacks when the cancellation flag
is already nonzero at the first check; the flag is checked before each
callback, so a nonzero flag at the k-th check bounds the whole sweep at
k invocations; and the callbacks that do run are an in-order prefix of
the registry. -/
theorem plugin_read_all_cancel {α : Type u} (loop : Nat → Int)
    (reg : Option (List (String × α))) :
    (loop 0 ≠ 0 → plugin_read_all loop reg = [])
      ∧ (∀ k, loop k ≠ 0 → (plugin_read_all loop reg).length ≤ k)
      ∧ plugin_read_all loop reg
          = ((reg.getD []).map (fun e => e.2)).take (plugin_read_all loop reg).length := by
  cases reg with
  | none => simp [plugin_read_all]
  | some l =>
    refine ⟨fun h0 => ?_, fun k hk => ?_, ?_⟩
    · have := plugin_read_loop_length loop l 0 0 (le_refl 0) h0
      simpa [plugin_read_all, List.length_eq_zero] using this
    · simpa [plugin_read_all] using plugin_read_loop_length loop l 0 k (by omega) hk
    · simpa [plugin_read_all] using plugin_read_loop_take loop l 0

/-- C8 witness: the cancellation theorem applied to a flag that is
already set at the first check and a one-entry read registry. -/
theorem plugin_read_all_cancel_witness :
    plugin_read_all (fun _ => (1 : Int)) (some [("r1", 5)]) = [] :=
  (plugin_read_all_cancel (fun _ => (1 : Int)) (some [("r1", 5)])).1 (by decide)

/-! Lemmas about the module loader. -/

theorem plugin_load_go_spec (tn : List Char) (l : List dirent_t) :
    (plugin_load_go tn l).2
        = (l.filter (fun e => strncasecmp_eq e.d_name tn tn.length)).takeWhile
            (fun e => !e.activates)
          ++ ((l.filter (fun e => strncasecmp_eq e.d_name tn tn.length)).find?
              (fun e => e.activates)).toList
      ∧ ((plugin_load_go tn l).1 = 0
          ↔ (l.filter (fun e => strncasecmp_eq e.d_name tn tn.length)).any
              (fun e => e.activates) = true) := by
  induction l with
  | nil => simp [plugin_load_go]
  | cons e es ih =>
    by_cases hm : strncasecmp_eq e.d_name tn tn.length = true
    · by_cases ha : e.activates = true
      · simp [plugin_load_go, hm, ha, List.filter_cons, List.takeWhile_cons,
          List.find?, List.any_cons]
      · obtain ⟨ih1, ih2⟩ := ih
        simp [plugin_load_go, hm, ha, List.filter_cons, List.takeWhile_cons,
          List.find?, List.any_cons, ih1, ih2]
    · obtain ⟨ih1, ih2⟩ := ih
      simp [plugin_load_go, hm, List.filter_cons, ih1, ih2]

/-- C9: under the BUFSIZE bound on the type name, a directory entry is a
candidate iff its filename begins, case-insensitively, with the type
name followed by ".so" (stated as: the lowercased filename truncated to
the typename length equals the lowercased typename); candidates are
tried in enumeration order up to and including the first one that
activates; the load succeeds iff some candidate activates; and, as the
spec instance demands, the name cpufreq.so is not a candidate for the
type cpu. -/
theorem plugin_load_spec (type : List Char) (entries : List dirent_t)
    (h : type.length + 3 < 512) :
    (∀ name : List Char,
        strncasecmp_eq name (plugin_typename type) (plugin_typename type).length = true
          ↔ (name.map Char.toLower).take (plugin_typename type).length
              = (plugin_typename type).map Char.toLower)
      ∧ (plugin_load type entries).2
          = (entries.filter (fun e =>
                strncasecmp_eq e.d_name (plugin_typename type)
                  (plugin_typename type).length)).takeWhile (fun e => !e.activates)
            ++ ((entries.filter (fun e =>
                strncasecmp_eq e.d_name (plugin_typename type)
                  (plugin_typename type).length)).find? (fun e => e.activates)).toList
      ∧ ((plugin_load type entries).1 = 0
          ↔ (entries.filter (fun e =>
                strncasecmp_eq e.d_name (plugin_typename type)
                  (plugin_typename type).length)).any (fun e => e.activates) = true)
      ∧ strncasecmp_eq ("cpufreq.so".toList) (plugin_typename ("cpu".toList))
            (plugin_typename ("cpu".toList)).length = false := by
  have hload : plugin_load type entries = plugin_load_go (plugin_typename type) entries := by
    simp [plugin_load, show ¬ 512 ≤ type.length + 3 by omega]
  obtain ⟨hgo1, hgo2⟩ := plugin_load_go_spec (plugin_typename type) entries
  refine ⟨fun name => ?_, by rw [hload]; exact hgo1, by rw [hload]; exact hgo2, by decide⟩
  unfold strncasecmp_eq
  rw [beq_iff_eq, List.map_take, List.map_take,
    List.take_of_length_le (le_of_eq (List.length_map (plugin_typename type) Char.toLower))]

/-- C9 witness: loading type cpu over a directory holding cpufreq.so and
cpu.so, both activatable: the load succeeds because cpu.so is a
candidate. -/
theorem plugin_load_spec_witness :
    (plugin_load ("cpu".toList)
        [⟨"cpufreq.so".toList, true⟩, ⟨"cpu.so".toList, true⟩]).1 = 0
      ↔ ([⟨"cpufreq.so".toList, true⟩, (⟨"cpu.so".toList, true⟩ : dirent_t)].filter
            (fun e => strncasecmp_eq e.d_name (plugin_typename ("cpu".toList))
              (plugin_typename ("cpu".toList)).length)).any (fun e => e.activates)
          = true :=
  (plugin_load_spec ("cpu".toList)
    [⟨"cpufreq.so".toList, true⟩, ⟨"cpu.so".toList, true⟩] (by decide)).2.2.1
